import Mathlib

/-!
Verification model of the WebSocket endpoint runtime in `src/rust/net/ws.rs`
and the task runtime in `src/rust/util/runtime.rs`.

Bytes are modelled as `Nat` (values < 256 where the source has `u8`); machine
integer casts (`as u8`, `as u16`, `as u64`) are modelled by explicit `% 2^w`.
Buffers (`Vec<u8>`) are `List Nat`; `Vec::shift n` is `List.drop n`,
`Vec::clear` produces `[]`.

I/O determinization: `socket_send` on a connection whose `wbuf` is empty and
whose `debug_pending` flag is false is modelled as accepting the whole message
(the partial-send / EAGAIN continuations move the unsent suffix into `wbuf`,
from which `proc_write` later drains it to the socket in order, so the byte
stream handed to the peer is the same).  The `sent` fields below record that
stream.
-/

set_option maxRecDepth 10000

namespace WsModel

/-- Connection lifecycle states, from `enum ConnectionState` in ws.rs. -/
inductive ConnectionState where
  | NeedHandshake
  | HandshakeComplete
  | Closed
deriving DecidableEq, Repr

/-- Connection kinds, from `enum ConnectionType` in ws.rs. -/
inductive ConnectionType where
  | Server
  | ServerConnection
  | ClientConnection
deriving DecidableEq, Repr

/-- Error kinds relevant to the modelled paths (subset of the repo's Error kinds). -/
inductive ErrKind where
  | ConnectionClosed
  | NotInitialized
deriving DecidableEq, Repr

/-- Text (0x81) vs binary (0x82) first header byte selector, from `enum MessageType`. -/
inductive MessageType where
  | Text
  | Binary
deriving DecidableEq, Repr

/-- Big-endian 16-bit serialization, from `to_be_bytes_u16` in src/rust/std/util.rs
(`bytes[0] = (value >> 8) as u8; bytes[1] = value as u8`). -/
def to_be_bytes_u16 (value : Nat) : List Nat :=
  [(value >>> 8) % 256, value % 256]

/-- Big-endian 64-bit serialization, from `to_be_bytes_u64` in src/rust/std/util.rs. -/
def to_be_bytes_u64 (value : Nat) : List Nat :=
  [(value >>> 56) % 256, (value >>> 48) % 256, (value >>> 40) % 256,
   (value >>> 32) % 256, (value >>> 24) % 256, (value >>> 16) % 256,
   (value >>> 8) % 256, value % 256]

/-- The fields of `ConnectionInner` that the modelled code paths read or write
(`handle`, `lock`, `send`, `wakeup`, `last` carry no byte-level behavior). -/
structure Conn where
  ctype : ConnectionType
  cstate : ConnectionState
  rbuf : List Nat
  wbuf : List Nat
  debug_pending : Bool
deriving DecidableEq, Repr

instance : DecidableEq (Except ErrKind Unit) := fun a b =>
  match a, b with
  | Except.ok (), Except.ok () => isTrue rfl
  | Except.error e1, Except.error e2 =>
    match decEq e1 e2 with
    | isTrue h => isTrue (by rw [h])
    | isFalse h => isFalse (by intro hh; cases hh; exact h rfl)
  | Except.ok (), Except.error _ => isFalse (by intro h; cases h)
  | Except.error _, Except.ok () => isFalse (by intro h; cases h)

/-- Result of one `Connection::writeb` call: outcome, updated connection, and
the bytes handed to `socket_send` on the connection's socket. -/
structure WritebResult where
  res : Except ErrKind Unit
  conn : Conn
  sent : List Nat
deriving DecidableEq, Repr

/-- Model of `Connection::writeb`.  The source: returns `ConnectionClosed` when
`cstate == Closed`; otherwise sends directly when `wbuf` is empty and
`debug_pending` is false (determinized to a full send), else takes `res = 0`
and appends the whole message to `wbuf` (the worker later drains `wbuf` to the
socket in order).  A zero-length message falls through with no effect. -/
def writeb (c : Conn) (msg : List Nat) : WritebResult :=
  if c.cstate = ConnectionState.Closed then
    ⟨Except.error ErrKind.ConnectionClosed, c, []⟩
  else if c.wbuf.length = 0 ∧ c.debug_pending = false then
    ⟨Except.ok (), c, msg⟩
  else if msg.length = 0 then
    ⟨Except.ok (), c, []⟩
  else
    ⟨Except.ok (), { c with wbuf := c.wbuf ++ msg }, []⟩

/-- Result of `Connection::close`: updated connection, bytes sent, and whether
`socket_shutdown` was invoked. -/
structure CloseResult where
  conn : Conn
  sent : List Nat
  shutdown : Bool
deriving DecidableEq, Repr

/-- Model of `Connection::close(v)`: when `cstate != NeedHandshake` it writes
`[0x88, 0]`, then `[0x88, 2]`, then the 16-bit big-endian status code; in every
case it then calls `socket_shutdown`.  Write errors are discarded (`let _ =`). -/
def conn_close (c : Conn) (v : Nat) : CloseResult :=
  if c.cstate ≠ ConnectionState.NeedHandshake then
    let w1 := writeb c [0x88, 0]
    let w2 := writeb w1.conn [0x88, 2]
    let w3 := writeb w2.conn (to_be_bytes_u16 v)
    ⟨w3.conn, w1.sent ++ w2.sent ++ w3.sent, true⟩
  else
    ⟨c, [], true⟩

/-- Result of `WsResponse::send_impl`. -/
structure SendResult where
  res : Except ErrKind Unit
  conn : Conn
  sent : List Nat
  shutdown : Bool
deriving DecidableEq, Repr

/-- Sequential `writeb` calls of `send_impl`: each message is written in turn;
on the first error the source runs `self.conn.close(1011)` and returns the
error. -/
def sendWrites (c : Conn) (msgs : List (List Nat)) : SendResult :=
  match msgs with
  | [] => ⟨Except.ok (), c, [], false⟩
  | m :: rest =>
    let w := writeb c m
    match w.res with
    | Except.error e =>
      let cl := conn_close w.conn 1011
      ⟨Except.error e, cl.conn, w.sent ++ cl.sent, true⟩
    | Except.ok _ =>
      let r := sendWrites w.conn rest
      ⟨r.res, r.conn, w.sent ++ r.sent, r.shutdown⟩

/-- Model of `WsResponse::send_impl`: chooses the first header byte from the
message type, then the length encoding (`len <= 125` one byte; `len <= 65535`
byte 126 plus 16-bit big-endian; otherwise byte 127 plus 64-bit big-endian),
then the payload, all through `writeb`. -/
def send_impl (c : Conn) (mtype : MessageType) (bytes : List Nat) : SendResult :=
  let b1 : Nat := match mtype with
    | MessageType.Text => 0x81
    | MessageType.Binary => 0x82
  let header : List (List Nat) :=
    if bytes.length ≤ 125 then
      [[b1, bytes.length % 256]]
    else if bytes.length ≤ 65535 then
      [[b1, 126], to_be_bytes_u16 (bytes.length % 2 ^ 16)]
    else
      [[b1, 127], to_be_bytes_u64 (bytes.length % 2 ^ 64)]
  sendWrites c (header ++ [bytes])

/-- The 36-octet RFC 6455 magic string `258EAFA5-E914-47DA-95CA-C5AB0DC85B11`
(`MAGIC_STRING` in ws.rs), as bytes. -/
def MAGIC_STRING : List Nat :=
  ("258EAFA5-E914-47DA-95CA-C5AB0DC85B11").data.map Char.toNat

/-- Overwrite `buf` at offset `off` with `src` (model of `copy_nonoverlapping`
into a fixed array; meaningful when `off + src.length ≤ buf.length`). -/
def writeBytesAt (buf : List Nat) (off : Nat) (src : List Nat) : List Nat :=
  buf.take off ++ src ++ buf.drop (off + src.length)

/-- The 60-byte `combined` buffer built by `handle_websocket_handshake`:
a zero-initialized `[u8; 60]`, the key copied at offset 0, the magic string
copied at offset `sec_key.len()`. -/
def hsCombined (sec_key : List Nat) : List Nat :=
  writeBytesAt (writeBytesAt (List.replicate 60 0) 0 sec_key) sec_key.length MAGIC_STRING

/-- The exact byte string handed to SHA-1 by `handle_websocket_handshake`:
the source calls `SHA1(combined.as_ptr(), combined.len(), ...)` with
`combined.len() = 60`, i.e. the whole 60-byte buffer regardless of the key's
length. -/
def sha1_input (sec_key : List Nat) : List Nat :=
  hsCombined sec_key

/-- Result of one `proc_hs_complete` call: updated connection, bytes sent on
the socket, whether `socket_shutdown` ran, and the handler invocations
(`fin`, `op`, payload) performed. -/
structure DecodeOut where
  conn : Conn
  sent : List Nat
  shutdown : Bool
  handler : List (Bool × Nat × List Nat)
deriving DecidableEq, Repr

/-- In-place XOR unmasking loop of `proc_hs_complete`: each payload byte at
absolute position `offset + i` is XORed with `masking_key[i % 4]`. -/
def unmaskBuf (buf : List Nat) (offset plen : Nat) (key : List Nat) : List Nat :=
  buf.enum.map (fun p =>
    if offset ≤ p.1 ∧ p.1 < offset + plen then p.2 ^^^ key.getD ((p.1 - offset) % 4) 0
    else p.2)

/-- Masking stage of `proc_hs_complete`: when the mask bit is set, the header
grows by the 4 masking-key bytes, incompleteness is reported (`none`), and the
payload region is XOR-unmasked in place; otherwise the buffer passes through.
Returns the (possibly rewritten) buffer and the final header offset. -/
def maskStep (buf : List Nat) (mask : Bool) (payload_len off0 len : Nat) :
    Option (List Nat × Nat) :=
  if mask then
    let offset := off0 + 4
    if offset + payload_len > len then none
    else
      let key := [buf.getD (offset - 4) 0, buf.getD (offset - 3) 0,
                  buf.getD (offset - 2) 0, buf.getD (offset - 1) 0]
      some (unmaskBuf buf offset payload_len key, offset)
  else some (buf, off0)

/-- Model of `proc_hs_complete` (the RFC 6455 frame decoder).  Mirrors the
source: a buffer of fewer than 2 bytes is left alone; nonzero reserved bits
`b0 & 0x70` run `close_cleanly(handle, 1002)` (which does not consume `rbuf`
and does not change `cstate`); `op = b0 & !0x80`; the variable-length payload
length and optional 4-byte masking key are parsed and, when the whole frame is
buffered, the handler is invoked once and header plus payload are consumed
(`clear` when exact, else `shift`). -/
def proc_hs_complete (c : Conn) : DecodeOut :=
  let buf := c.rbuf
  let len := buf.length
  if len < 2 then ⟨c, [], false, []⟩
  else
    let b0 := buf.getD 0 0
    let fin : Bool := decide (b0 &&& 0x80 ≠ 0)
    if b0 &&& 0x70 ≠ 0 then
      let cl := conn_close c 1002
      ⟨cl.conn, cl.sent, cl.shutdown, []⟩
    else
      let op := b0 &&& 0x7F
      let b1v := buf.getD 1 0
      let mask : Bool := decide (b1v &&& 0x80 ≠ 0)
      let pl7 := b1v &&& 0x7F
      let plo : Option (Nat × Nat) :=
        if pl7 = 126 then
          if len < 4 then none
          else some ((buf.getD 2 0) <<< 8 ||| buf.getD 3 0, 4)
        else if pl7 = 127 then
          if len < 10 then none
          else some ((buf.getD 2 0) <<< 56 ||| (buf.getD 3 0) <<< 48 |||
                     (buf.getD 4 0) <<< 40 ||| (buf.getD 5 0) <<< 32 |||
                     (buf.getD 6 0) <<< 24 ||| (buf.getD 7 0) <<< 16 |||
                     (buf.getD 8 0) <<< 8 ||| buf.getD 9 0, 10)
        else some (pl7, 2)
      match plo with
      | none => ⟨c, [], false, []⟩
      | some (payload_len, off0) =>
        match maskStep buf mask payload_len off0 len with
        | none => ⟨c, [], false, []⟩
        | some (buf2, offset) =>
          if offset + payload_len > len then ⟨c, [], false, []⟩
          else
            let payload := (buf2.drop offset).take payload_len
            let nrbuf :=
              if payload_len + offset = len then [] else buf2.drop (payload_len + offset)
            ⟨{ c with rbuf := nrbuf }, [], false, [(fin, op, payload)]⟩

/-- Frame-completeness test, read off the early-return conditions of
`proc_hs_complete`: at least 2 bytes buffered; when `b1 & 0x7F` is 126 (resp.
127) the 2 (resp. 8) extended-length bytes are present; and the header —
including the 4 masking-key bytes when the mask bit `b1 & 0x80` is set — plus
the payload fit in the buffer (`offset + payload_len <= len`).  Returns
`some (payload_len, offset)` exactly when the buffer starts with a complete
frame, i.e. when none of the decoder's `return`-without-consuming paths (other
than the reserved-bits close) fires. -/
def frame_header (buf : List Nat) : Option (Nat × Nat) :=
  let len := buf.length
  if len < 2 then none
  else
    let b1v := buf.getD 1 0
    let mask : Bool := decide (b1v &&& 0x80 ≠ 0)
    let pl7 := b1v &&& 0x7F
    let plo : Option (Nat × Nat) :=
      if pl7 = 126 then
        if len < 4 then none
        else some ((buf.getD 2 0) <<< 8 ||| buf.getD 3 0, 4)
      else if pl7 = 127 then
        if len < 10 then none
        else some ((buf.getD 2 0) <<< 56 ||| (buf.getD 3 0) <<< 48 |||
                   (buf.getD 4 0) <<< 40 ||| (buf.getD 5 0) <<< 32 |||
                   (buf.getD 6 0) <<< 24 ||| (buf.getD 7 0) <<< 16 |||
                   (buf.getD 8 0) <<< 8 ||| buf.getD 9 0, 10)
      else some (pl7, 2)
    match plo with
    | none => none
    | some (payload_len, off0) =>
      let offset := if mask then off0 + 4 else off0
      if offset + payload_len > len then none
      else some (payload_len, offset)

/-- Bytes of `GET_PREFIX` in ws.rs. -/
def GET_PREFIX : List Nat := ("GET /").data.map Char.toNat

/-- Bytes of `SEC_KEY_PREFIX` in ws.rs. -/
def SEC_KEY_PREFIX : List Nat := ("Sec-WebSocket-Key: ").data.map Char.toNat

/-- Bytes of `SWITCHING_PROTOCOL_PREFIX` in ws.rs. -/
def SWITCHING_PROTOCOL_PREFIX_BYTES : List Nat :=
  ("HTTP/1.1 101 Switching Protocols\r\n").data.map Char.toNat

/-- Bytes of the static `BAD_REQUEST` response in ws.rs. -/
def BAD_REQUEST_BYTES : List Nat :=
  ("HTTP/1.1 400 Bad Request\r\nContent-Type: text/plain\r\nConnection: close\r\n\r\n").data.map
    Char.toNat

/-- URI terminators recognized by `proc_hs`: space, question mark, CR, LF
(in the order tested by the source). -/
def isTermByte (c : Nat) : Bool := c = 32 || c = 63 || c = 13 || c = 10

/-- URI character class of `proc_hs`: `[a-zA-Z0-9-._~/]`. -/
def isUriByte (c : Nat) : Bool :=
  (97 ≤ c && c ≤ 122) || (65 ≤ c && c ≤ 90) || (48 ≤ c && c ≤ 57) ||
  c = 45 || c = 46 || c = 95 || c = 126 || c = 47

/-- Fuel-indexed form of the `uri_end` scan (`fuel` bounds the remaining
indices; the wrapper passes exactly `buf.length - i`, so the fuel never runs
out before the loop's own exit test). -/
def findUriEndF : Nat → List Nat → Nat → Nat
  | 0, _, _ => 0
  | fuel + 1, buf, i =>
    if i < buf.length then
      if isTermByte (buf.getD i 0) then i else findUriEndF fuel buf (i + 1)
    else 0

/-- The `uri_end` scan of `proc_hs`: first index `>= i` holding a terminator
byte; `0` when none exists (the loop variable `uri_end` keeps its initial 0). -/
def findUriEnd (buf : List Nat) (i : Nat) : Nat :=
  findUriEndF (buf.length - i) buf i

/-- Fuel-indexed form of the inner `j` scan of the `Sec-WebSocket-Key` branch. -/
def findLineEndF : Nat → List Nat → Nat → Option Nat
  | 0, _, _ => none
  | fuel + 1, buf, j =>
    if j < buf.length then
      if buf.getD j 0 = 13 || buf.getD j 0 = 10 then some j else findLineEndF fuel buf (j + 1)
    else none

/-- The inner `j` scan of the `Sec-WebSocket-Key` branch: first index `>= j`
holding CR or LF, if any. -/
def findLineEnd (buf : List Nat) (j : Nat) : Option Nat :=
  findLineEndF (buf.length - j) buf j

/-- End-of-headers test at index `i`: bytes `i-3 .. i` are CR LF CR LF
(the source reads `rvec[i] == \n && rvec[i-1] == \r && rvec[i-2] == \n &&
rvec[i-3] == \r`). -/
def sentinelAt (buf : List Nat) (i : Nat) : Bool :=
  buf.getD i 0 = 10 && buf.getD (i - 1) 0 = 13 &&
  buf.getD (i - 2) 0 = 10 && buf.getD (i - 3) 0 = 13

/-- Test of the `Sec-WebSocket-Key: ` header start right after a LF at `i`:
`len > i + 1 + SEC_KEY_PREFIX.len()` and the next 19 bytes equal the prefix. -/
def keyPrefixAt (buf : List Nat) (i : Nat) : Bool :=
  decide (buf.length > i + 1 + SEC_KEY_PREFIX.length) &&
  decide ((buf.drop (i + 1)).take SEC_KEY_PREFIX.length = SEC_KEY_PREFIX)

/-- Outcome of the server handshake parser `proc_hs` on a read buffer:
`bad` is the `bad_request` path, `ok key consumed` is the 101 path (the header
bytes `0 .. consumed` are consumed from `rbuf`), and `wait` leaves everything
for a later read. -/
inductive HsOut where
  | bad
  | ok (key : List Nat) (consumed : Nat)
  | wait
deriving DecidableEq, Repr

/-- Fuel-indexed form of the main header scan of `proc_hs`
(`for i in uri_end..len`), carrying the current `sec_key` slice.  At an
end-of-headers sentinel it accepts or rejects; at a LF followed by the key
prefix it captures the value up to the first CR/LF (leaving `sec_key`
unchanged when no CR/LF follows); otherwise it advances. -/
def hsScanF : Nat → List Nat → Nat → List Nat → HsOut
  | 0, _, _, _ => HsOut.wait
  | fuel + 1, buf, i, secKey =>
    if i < buf.length then
      if sentinelAt buf i then
        if secKey = [] ∨ secKey.length > 24 then HsOut.bad else HsOut.ok secKey (i + 1)
      else if buf.getD i 0 = 10 ∧ keyPrefixAt buf i then
        match findLineEnd buf (i + 1 + SEC_KEY_PREFIX.length) with
        | some j =>
          hsScanF fuel buf (i + 1)
            ((buf.drop (i + 1 + SEC_KEY_PREFIX.length)).take
              (j - (i + 1 + SEC_KEY_PREFIX.length)))
        | none => hsScanF fuel buf (i + 1) secKey
      else hsScanF fuel buf (i + 1) secKey
    else HsOut.wait

/-- The main header scan of `proc_hs` starting at index `i`. -/
def hsScan (buf : List Nat) (i : Nat) (secKey : List Nat) : HsOut :=
  hsScanF (buf.length - i) buf i secKey

/-- Model of `proc_hs` (server-side handshake parser): requires the 5-byte
`GET /` prefix, a terminated URI of legal characters (`uri = rvec[4..uri_end]`),
then scans for the key header and the end-of-headers sentinel. -/
def proc_hs (buf : List Nat) : HsOut :=
  if 5 ≤ buf.length ∧ buf.take 5 = GET_PREFIX then
    let uri_end := findUriEnd buf 5
    if uri_end = 0 then HsOut.bad
    else if ((buf.drop 4).take (uri_end - 4)).all isUriByte = false then HsOut.bad
    else hsScan buf uri_end []
  else HsOut.bad

/-- Effect of `bad_request`: write the static 400 response through the
connection and shut the socket down. -/
def bad_request_eff (c : Conn) : Conn × List Nat × Bool :=
  let w := writeb c BAD_REQUEST_BYTES
  (w.conn, w.sent, true)

/-- State effect of `proc_hs` on the connection: the `ok` branch switches to
`HandshakeComplete` and consumes the header bytes (`clear` when exact, else
`shift`); `bad` (which writes the 400 and shuts down) and `wait` leave
`cstate` and `rbuf` unchanged. -/
def apply_hs (c : Conn) : Conn :=
  match proc_hs c.rbuf with
  | HsOut.bad => c
  | HsOut.ok _ consumed =>
    { c with cstate := ConnectionState.HandshakeComplete,
             rbuf := if c.rbuf.length = consumed then [] else c.rbuf.drop consumed }
  | HsOut.wait => c

/-- Fuel-indexed form of the scan of `proc_hs_client` (`for i in
3..rvec.len()`): at each end-of-headers sentinel whose buffer starts with the
101 status line it reports the consumed length `i + 1`. -/
def hsClientScanF : Nat → List Nat → Nat → Option Nat
  | 0, _, _ => none
  | fuel + 1, buf, i =>
    if i < buf.length then
      if sentinelAt buf i then
        if SWITCHING_PROTOCOL_PREFIX_BYTES.length ≤ i ∧
           buf.take SWITCHING_PROTOCOL_PREFIX_BYTES.length = SWITCHING_PROTOCOL_PREFIX_BYTES then
          some (i + 1)
        else hsClientScanF fuel buf (i + 1)
      else hsClientScanF fuel buf (i + 1)
    else none

/-- The response scan of `proc_hs_client` starting at index `i`. -/
def hs_client_scan (buf : List Nat) (i : Nat) : Option Nat :=
  hsClientScanF (buf.length - i) buf i

/-- State effect of `proc_hs_client`: on a found 101 response the connection
becomes `HandshakeComplete` and the response bytes are consumed. -/
def proc_hs_client_apply (c : Conn) : Conn :=
  match hs_client_scan c.rbuf 3 with
  | some consumed =>
    { c with cstate := ConnectionState.HandshakeComplete,
             rbuf := if c.rbuf.length = consumed then [] else c.rbuf.drop consumed }
  | none => c

/-- One iteration body of `proc_messages`: `NeedHandshake` connections run the
client or server handshake parser depending on `ctype`; every other state runs
`proc_hs_complete`. -/
def proc_messages_step (c : Conn) : Conn :=
  match c.cstate with
  | ConnectionState.NeedHandshake =>
    if c.ctype = ConnectionType.ClientConnection then proc_hs_client_apply c else apply_hs c
  | _ => (proc_hs_complete c).conn

/-- The `proc_messages` loop with explicit fuel: each iteration records the
starting length, runs the step, and exits when the buffer is empty or its
length did not change; `none` means the fuel ran out before the loop exited. -/
def proc_messages_fuel : Nat → Conn → Option Conn
  | 0, _ => none
  | fuel + 1, c =>
    let slen := c.rbuf.length
    let c2 := proc_messages_step c
    let elen := c2.rbuf.length
    if elen = 0 ∨ elen = slen then some c2 else proc_messages_fuel fuel c2

/-- Task-runtime bookkeeping relevant to `Runtime::stop` (runtime.rs):
the halt flag, the number of `Halt` messages ever enqueued, the number of
join-handle joins/releases performed, and the tracked join handles currently
in the `jhs` table. -/
structure RtState where
  halt : Bool
  haltsSent : Nat
  joins : Nat
  jhs : Nat
deriving DecidableEq, Repr

/-- Model of `Runtime::stop`: under the write lock, a set halt flag returns
`NotInitialized` with no further effect; otherwise it sets halt, enqueues
`Halt` `max_threads` times, and joins and releases every tracked handle. -/
def rt_stop (max_threads : Nat) (s : RtState) : Except ErrKind Unit × RtState :=
  if s.halt then (Except.error ErrKind.NotInitialized, s)
  else
    (Except.ok (),
      { halt := true, haltsSent := s.haltsSent + max_threads,
        joins := s.joins + s.jhs, jhs := 0 })

/-- Endpoint-level state relevant to `WebSocket::stop`: the endpoint halt
flag, the configured thread count (used as the runtime's `max_threads`), and
the runtime handle installed by `start()`. -/
structure WsEndpointState where
  halt : Bool
  threads : Nat
  runtime : Option RtState
deriving DecidableEq, Repr

/-- Model of `WebSocket::stop`: sets the endpoint halt flag, wakes the workers
(an effect on the wake pipes only), then delegates to `Runtime::stop` when a
runtime was installed and returns its result. -/
def ws_stop (s : WsEndpointState) : Except ErrKind Unit × WsEndpointState :=
  let s1 : WsEndpointState := { s with halt := true }
  match s1.runtime with
  | some rt =>
    let r := rt_stop s1.threads rt
    (r.1, { s1 with runtime := some r.2 })
  | none => (Except.ok (), s1)

/-- Counters of the elastic worker pool (runtime.rs `State`), all mutated
under the pool's write lock. -/
structure PoolState where
  total : Nat
  waiting : Nat
  halt : Bool
deriving DecidableEq, Repr

/-- Top-of-loop critical section of `Runtime::thread`: on halt the worker
decrements `total_workers` and exits; otherwise it increments
`waiting_workers` and, when that exceeds `min_threads`, undoes the increment,
decrements `total_workers`, and exits (elastic contraction).  Returns whether
the worker exited together with the updated counters. -/
def worker_top (minT : Nat) (s : PoolState) : Bool × PoolState :=
  if s.halt then (true, { s with total := s.total - 1 })
  else
    let s1 := { s with waiting := s.waiting + 1 }
    if s1.waiting > minT then
      (true, { s1 with total := s1.total - 1, waiting := s1.waiting - 1 })
    else (false, s1)

/-- Task-dequeue critical section of `Runtime::thread`: decrement
`waiting_workers`; when it reaches 0 while `total_workers < max_threads` and
halt is unset, increment `total_workers` and spawn exactly one more worker.
Returns the number of workers spawned together with the updated counters. -/
def worker_task (maxT : Nat) (s : PoolState) : Nat × PoolState :=
  let s1 := { s with waiting := s.waiting - 1 }
  if s1.waiting = 0 ∧ s1.total < maxT ∧ s1.halt = false then
    (1, { s1 with total := s1.total + 1 })
  else (0, s1)

/-- Interleaved transitions of the pool counters: a worker at the top of its
loop (one of the `total` live workers), a worker dequeuing a task (one of the
`waiting` workers), a dequeued `Halt` message (no counter change), and
`Runtime::stop` setting the halt flag. -/
inductive PoolStep (minT maxT : Nat) : PoolState → PoolState → Prop where
  | top (s : PoolState) (h : 1 ≤ s.total) : PoolStep minT maxT s (worker_top minT s).2
  | task (s : PoolState) (h : 1 ≤ s.waiting) : PoolStep minT maxT s (worker_task maxT s).2
  | haltMsg (s : PoolState) : PoolStep minT maxT s s
  | setHalt (s : PoolState) : PoolStep minT maxT s { s with halt := true }

/-- Pool states reachable from the initial state installed by `Runtime::new`
and `start()`: `total_workers = min_threads`, no waiting workers, halt unset. -/
inductive PoolReachable (minT maxT : Nat) : PoolState → Prop where
  | init : PoolReachable minT maxT ⟨minT, 0, false⟩
  | step {s s2 : PoolState} : PoolReachable minT maxT s → PoolStep minT maxT s s2 →
      PoolReachable minT maxT s2

/-- Spec-side predicate (from the spec's words): a complete HTTP request has
the end-of-headers sentinel CR LF CR LF starting at some index `s`. -/
def sentinelStartAt (buf : List Nat) (s : Nat) : Prop :=
  s + 3 < buf.length ∧ buf.getD s 0 = 13 ∧ buf.getD (s + 1) 0 = 10 ∧
  buf.getD (s + 2) 0 = 13 ∧ buf.getD (s + 3) 0 = 10

/-- Spec-side predicate: the buffer holds a complete request (contains the
end-of-headers sentinel). -/
def specComplete (buf : List Nat) : Prop :=
  ∃ s, sentinelStartAt buf s

/-- Spec-side predicate (from the spec's words): the request begins with
`GET /` followed by a URI consisting only of characters in
`[A-Za-z0-9-._~/]` terminated by space, `?`, or CR/LF. -/
def specRequestLineOk (buf : List Nat) : Prop :=
  5 ≤ buf.length ∧ buf.take 5 = GET_PREFIX ∧
  ∃ e, 5 ≤ e ∧ e < buf.length ∧ isTermByte (buf.getD e 0) = true ∧
    ∀ k, 5 ≤ k → k < e → isUriByte (buf.getD k 0) = true

/-- Spec-side predicate (from the spec's words): a `Sec-WebSocket-Key: `
header line starts right after the LF at index `i`, and its value — the bytes
up to the first following CR or LF, at index `j` — is non-empty and at most
24 octets long. -/
def specKeyHeaderAt (buf : List Nat) (i j : Nat) : Prop :=
  buf.getD i 0 = 10 ∧
  (buf.drop (i + 1)).take SEC_KEY_PREFIX.length = SEC_KEY_PREFIX ∧
  i + 1 + SEC_KEY_PREFIX.length ≤ j ∧ j < buf.length ∧
  (buf.getD j 0 = 13 ∨ buf.getD j 0 = 10) ∧
  (∀ m, i + 1 + SEC_KEY_PREFIX.length ≤ m → m < j →
    buf.getD m 0 ≠ 13 ∧ buf.getD m 0 ≠ 10) ∧
  1 ≤ j - (i + 1 + SEC_KEY_PREFIX.length) ∧ j - (i + 1 + SEC_KEY_PREFIX.length) ≤ 24

/-- Spec-side predicate (from the spec's words): the request is well formed —
legal request line, and a `Sec-WebSocket-Key` header of value length 1..24
that appears before the end-of-headers sentinel (its LF precedes the end of
every sentinel occurrence, hence of the first one). -/
def specGoodRequest (buf : List Nat) : Prop :=
  specRequestLineOk buf ∧
  ∃ i j, specKeyHeaderAt buf i j ∧ ∀ s, sentinelStartAt buf s → i < s + 3

/-- The literal malformed upgrade request of the spec's scenario 4:
`GET /../ HTTP/1.1` followed by CR LF CR LF. -/
def bad_uri_request : List Nat :=
  ("GET /../ HTTP/1.1\r\n\r\n").data.map Char.toNat

/-- A server-side connection after a completed handshake with empty write
buffer and `debug_pending` off (the direct-send configuration). -/
def server_conn (rbuf : List Nat) : Conn :=
  ⟨ConnectionType.ServerConnection, ConnectionState.HandshakeComplete, rbuf, [], false⟩

/-- The wire image of one `send_impl` call (header, optional extended length,
payload), as concatenated by its successive `writeb` calls. -/
def frame_bytes (b1 : Nat) (bytes : List Nat) : List Nat :=
  (if bytes.length ≤ 125 then [b1, bytes.length % 256]
   else if bytes.length ≤ 65535 then [b1, 126] ++ to_be_bytes_u16 (bytes.length % 2 ^ 16)
   else [b1, 127] ++ to_be_bytes_u64 (bytes.length % 2 ^ 64)) ++ bytes

/-- The frame emitted by `WsResponse::send` (text) / `WsResponse::sendb`
(binary) on a fresh `HandshakeComplete` server connection. -/
def encode_frame (mtype : MessageType) (bytes : List Nat) : List Nat :=
  (send_impl (server_conn []) mtype bytes).sent

/-! ## Helper lemmas -/

/-- Evaluation of `Connection::close` on a `HandshakeComplete` connection with
an empty write buffer on the direct-send path. -/
theorem conn_close_hs_eval (c : Conn) (status : Nat)
    (hst : c.cstate = ConnectionState.HandshakeComplete)
    (hw : c.wbuf = []) (hd : c.debug_pending = false) :
    conn_close c status = ⟨c, [0x88, 0, 0x88, 2] ++ to_be_bytes_u16 status, true⟩ := by
  simp [conn_close, writeb, hst, hw, hd, to_be_bytes_u16]

/-- Evaluation of `Connection::close` on a closed connection: every write
fails with `ConnectionClosed` and is discarded, so nothing is emitted. -/
theorem conn_close_closed_eval (c : Conn) (status : Nat)
    (hst : c.cstate = ConnectionState.Closed) :
    conn_close c status = ⟨c, [], true⟩ := by
  simp [conn_close, writeb, hst]

/-- Evaluation of `Connection::close` on a connection still in handshake:
the frame writes are skipped entirely. -/
theorem conn_close_nh_eval (c : Conn) (status : Nat)
    (hst : c.cstate = ConnectionState.NeedHandshake) :
    conn_close c status = ⟨c, [], true⟩ := by
  simp [conn_close, hst]

/-- Writes through `writeb` never modify the read buffer. -/
theorem writeb_rbuf (c : Conn) (m : List Nat) : (writeb c m).conn.rbuf = c.rbuf := by
  unfold writeb
  split
  · rfl
  split
  · rfl
  split <;> rfl

/-- `Connection::close` never modifies the read buffer. -/
theorem conn_close_rbuf (c : Conn) (v : Nat) : (conn_close c v).conn.rbuf = c.rbuf := by
  unfold conn_close
  split
  · simp [writeb_rbuf]
  · rfl

/-- Unmasking rewrites bytes in place, so the buffer length is preserved. -/
theorem unmaskBuf_length (buf : List Nat) (offset plen : Nat) (key : List Nat) :
    (unmaskBuf buf offset plen key).length = buf.length := by
  simp [unmaskBuf]

/-- A successful `maskStep` returns a buffer of the same length. -/
theorem maskStep_length (buf : List Nat) (mask : Bool) (pl off0 len : Nat)
    (buf2 : List Nat) (offset : Nat)
    (h : maskStep buf mask pl off0 len = some (buf2, offset)) :
    buf2.length = buf.length := by
  unfold maskStep at h
  dsimp only at h
  split at h
  · split at h
    · exact absurd h (by simp)
    · simp only [Option.some.injEq, Prod.mk.injEq] at h
      rw [← h.1, unmaskBuf_length]
  · simp only [Option.some.injEq, Prod.mk.injEq] at h
    rw [← h.1]

/-- When the full header (masking key included) plus payload fits in the
buffer, `maskStep` succeeds and returns the offset past the masking key. -/
theorem maskStep_of_le (buf : List Nat) (mask : Bool) (pl off0 len : Nat)
    (hle : ¬((if mask then off0 + 4 else off0) + pl > len)) :
    ∃ buf2, maskStep buf mask pl off0 len =
      some (buf2, if mask then off0 + 4 else off0) := by
  unfold maskStep
  cases mask with
  | false => exact ⟨buf, by simp⟩
  | true =>
    have hle2 : ¬(off0 + 4 + pl > len) := by simpa using hle
    refine ⟨unmaskBuf buf (off0 + 4) pl
        [buf.getD (off0 + 4 - 4) 0, buf.getD (off0 + 4 - 3) 0,
         buf.getD (off0 + 4 - 2) 0, buf.getD (off0 + 4 - 1) 0], ?_⟩
    simp [hle2]

/-- The frame decoder never grows the read buffer. -/
theorem proc_hs_complete_rbuf_le (c : Conn) :
    (proc_hs_complete c).conn.rbuf.length ≤ c.rbuf.length := by
  unfold proc_hs_complete
  dsimp only
  split
  · exact Nat.le_refl _
  split
  · simp [conn_close_rbuf]
  split
  · exact Nat.le_refl _
  rename_i payload_len off0 heq
  split
  · exact Nat.le_refl _
  rename_i buf2 offset heq2
  have hlen2 : buf2.length = c.rbuf.length := maskStep_length _ _ _ _ _ _ _ heq2
  split
  · exact Nat.le_refl _
  split
  · simp
  · simp only [List.length_drop]
    omega

/-- The handshake parsers and the frame decoder never grow the read buffer. -/
theorem proc_messages_step_rbuf_le (c : Conn) :
    (proc_messages_step c).rbuf.length ≤ c.rbuf.length := by
  unfold proc_messages_step
  split
  · split
    · unfold proc_hs_client_apply
      split
      · split
        · simp
        · simp only [List.length_drop]; omega
      · exact Nat.le_refl _
    · unfold apply_hs
      split
      · exact Nat.le_refl _
      · split
        · simp
        · simp only [List.length_drop]; omega
      · exact Nat.le_refl _
  · exact proc_hs_complete_rbuf_le c

/-- Fuel adequacy for the `proc_messages` loop: `rbuf.length + 1` iterations
always reach the loop's own exit condition. -/
theorem proc_messages_fuel_total :
    ∀ (n : Nat) (c : Conn), c.rbuf.length < n → (proc_messages_fuel n c).isSome = true := by
  intro n
  induction n with
  | zero => intro c h; omega
  | succ m ih =>
    intro c h
    unfold proc_messages_fuel
    dsimp only
    split
    · rfl
    · rename_i hcond
      exact ih _ (by have := proc_messages_step_rbuf_le c; omega)

/-- Bitwise-or of a value with zero low bits and a value fitting in them is
addition. -/
theorem lor_step (n : Nat) {a b : Nat} (hdvd : 2 ^ n ∣ a) (hb : b < 2 ^ n) :
    a ||| b = a + b := by
  obtain ⟨c, rfl⟩ := hdvd
  exact (Nat.mul_add_lt_is_or hb c).symm

/-- A 7-bit value has a clear mask bit. -/
theorem and_128_eq_zero {L : Nat} (h : L < 128) : L &&& 128 = 0 := by
  apply Nat.eq_of_testBit_eq
  intro i
  simp only [Nat.testBit_and, Nat.zero_testBit]
  rcases eq_or_ne i 7 with rfl | hne
  · simp [Nat.testBit_lt_two_pow (show L < 2 ^ 7 by omega)]
  · rw [show (128 : Nat) = 2 ^ 7 by norm_num, Nat.testBit_two_pow_of_ne (Ne.symm hne)]
    simp

/-- A 7-bit value is unchanged by the low-7-bit mask. -/
theorem and_127_eq_self {L : Nat} (h : L < 128) : L &&& 127 = L := by
  have h1 := Nat.and_pow_two_sub_one_of_lt_two_pow (show L < 2 ^ 7 by omega)
  norm_num at h1
  exact h1

/-- Recomposition of the decoder's 16-bit big-endian extended length from the
bytes produced by `to_be_bytes_u16`. -/
theorem be16_or {L : Nat} (h : L < 65536) :
    ((L >>> 8) % 256) <<< 8 ||| L % 256 = L := by
  have h1 : L >>> 8 = L / 256 := by
    rw [Nat.shiftRight_eq_div_pow]
  have h2 : L / 256 % 256 = L / 256 := Nat.mod_eq_of_lt (by omega)
  rw [h1, h2, Nat.shiftLeft_eq,
    lor_step 8 (show (2 : Nat) ^ 8 ∣ L / 256 * 2 ^ 8 from ⟨L / 256, by ring⟩)
      (show L % 256 < 2 ^ 8 by omega)]
  omega

/-- The decoder's left-associated 8-byte or-chain, on arbitrary byte values,
equals the big-endian sum. -/
theorem or_byte_chain (b2 b3 b4 b5 b6 b7 b8 b9 : Nat)
    (h3 : b3 < 256) (h4 : b4 < 256) (h5 : b5 < 256) (h6 : b6 < 256)
    (h7 : b7 < 256) (h8 : b8 < 256) (h9 : b9 < 256) :
    b2 <<< 56 ||| b3 <<< 48 ||| b4 <<< 40 ||| b5 <<< 32 ||| b6 <<< 24 |||
      b7 <<< 16 ||| b8 <<< 8 ||| b9 =
    b2 * 2 ^ 56 + b3 * 2 ^ 48 + b4 * 2 ^ 40 + b5 * 2 ^ 32 + b6 * 2 ^ 24 +
      b7 * 2 ^ 16 + b8 * 2 ^ 8 + b9 := by
  simp only [Nat.shiftLeft_eq, Nat.lor_assoc]
  rw [lor_step 8 (show (2 : Nat) ^ 8 ∣ b8 * 2 ^ 8 from ⟨b8, by ring⟩) (show b9 < 2 ^ 8 by omega)]
  rw [lor_step 16 (show (2 : Nat) ^ 16 ∣ b7 * 2 ^ 16 from ⟨b7, by ring⟩)
    (show b8 * 2 ^ 8 + b9 < 2 ^ 16 by omega)]
  rw [lor_step 24 (show (2 : Nat) ^ 24 ∣ b6 * 2 ^ 24 from ⟨b6, by ring⟩)
    (show b7 * 2 ^ 16 + (b8 * 2 ^ 8 + b9) < 2 ^ 24 by omega)]
  rw [lor_step 32 (show (2 : Nat) ^ 32 ∣ b5 * 2 ^ 32 from ⟨b5, by ring⟩)
    (show b6 * 2 ^ 24 + (b7 * 2 ^ 16 + (b8 * 2 ^ 8 + b9)) < 2 ^ 32 by omega)]
  rw [lor_step 40 (show (2 : Nat) ^ 40 ∣ b4 * 2 ^ 40 from ⟨b4, by ring⟩)
    (show b5 * 2 ^ 32 + (b6 * 2 ^ 24 + (b7 * 2 ^ 16 + (b8 * 2 ^ 8 + b9))) < 2 ^ 40 by omega)]
  rw [lor_step 48 (show (2 : Nat) ^ 48 ∣ b3 * 2 ^ 48 from ⟨b3, by ring⟩)
    (show b4 * 2 ^ 40 + (b5 * 2 ^ 32 + (b6 * 2 ^ 24 + (b7 * 2 ^ 16 + (b8 * 2 ^ 8 + b9)))) < 2 ^ 48
      by omega)]
  rw [lor_step 56 (show (2 : Nat) ^ 56 ∣ b2 * 2 ^ 56 from ⟨b2, by ring⟩)
    (show b3 * 2 ^ 48 +
        (b4 * 2 ^ 40 + (b5 * 2 ^ 32 + (b6 * 2 ^ 24 + (b7 * 2 ^ 16 + (b8 * 2 ^ 8 + b9))))) < 2 ^ 56
      by omega)]
  ring

/-- Recomposition of the decoder's 64-bit big-endian extended length from the
bytes produced by `to_be_bytes_u64`. -/
theorem be64_or {L : Nat} (h : L < 2 ^ 64) :
    ((L >>> 56) % 256) <<< 56 ||| ((L >>> 48) % 256) <<< 48 ||| ((L >>> 40) % 256) <<< 40 |||
      ((L >>> 32) % 256) <<< 32 ||| ((L >>> 24) % 256) <<< 24 ||| ((L >>> 16) % 256) <<< 16 |||
      ((L >>> 8) % 256) <<< 8 ||| L % 256 = L := by
  rw [or_byte_chain _ _ _ _ _ _ _ _ (Nat.mod_lt _ (by omega)) (Nat.mod_lt _ (by omega))
    (Nat.mod_lt _ (by omega)) (Nat.mod_lt _ (by omega)) (Nat.mod_lt _ (by omega))
    (Nat.mod_lt _ (by omega)) (Nat.mod_lt _ (by omega))]
  simp only [Nat.shiftRight_eq_div_pow]
  omega

/-- On the direct-send configuration, `writeb` transmits the message and
changes nothing. -/
theorem writeb_direct_eval (c : Conn) (m : List Nat)
    (hst : c.cstate = ConnectionState.HandshakeComplete)
    (hw : c.wbuf = []) (hd : c.debug_pending = false) :
    writeb c m = ⟨Except.ok (), c, m⟩ := by
  simp [writeb, hst, hw, hd]

/-- On the direct-send configuration, `send_impl` succeeds and its wire image
is exactly `frame_bytes`. -/
theorem send_impl_eval (c : Conn) (mtype : MessageType) (bytes : List Nat)
    (hst : c.cstate = ConnectionState.HandshakeComplete)
    (hw : c.wbuf = []) (hd : c.debug_pending = false) :
    send_impl c mtype bytes =
      ⟨Except.ok (), c,
       frame_bytes
         (match mtype with | MessageType.Text => 0x81 | MessageType.Binary => 0x82) bytes,
       false⟩ := by
  unfold send_impl frame_bytes
  cases mtype <;>
    (dsimp only; split <;> (try split) <;>
      simp [sendWrites, writeb_direct_eval c _ hst hw hd])

/-- Decoding the wire image of `send_impl` on a fresh `HandshakeComplete`
connection yields exactly one handler invocation with `fin = true`,
`op = b1 & 0x7F`, the original payload, and an emptied read buffer, with no
bytes emitted and no shutdown. -/
theorem decode_frame_bytes (c : Conn) (b1v : Nat) (P : List Nat)
    (hb1 : b1v = 0x81 ∨ b1v = 0x82) (hP : P.length ≤ 2 ^ 31)
    (hrb : c.rbuf = frame_bytes b1v P) :
    proc_hs_complete c =
      ⟨{ c with rbuf := [] }, [], false, [(true, b1v &&& 0x7F, P)]⟩ := by
  have hrsv : ¬(b1v &&& 112 ≠ 0) := by
    rcases hb1 with rfl | rfl <;> decide
  have hfin : decide (b1v &&& 128 ≠ 0) = true := by
    rcases hb1 with rfl | rfl <;> decide
  rcases (show P.length ≤ 125 ∨ (126 ≤ P.length ∧ P.length ≤ 65535) ∨ 65536 ≤ P.length
      by omega) with hc | ⟨hc1, hc2⟩ | hc
  · -- single-byte length encoding
    have hfb : c.rbuf = b1v :: P.length :: P := by
      rw [hrb]; unfold frame_bytes
      rw [if_pos hc, Nat.mod_eq_of_lt (by omega)]
      simp
    have h126 : ¬(P.length = 126) := by omega
    have h127 : ¬(P.length = 127) := by omega
    unfold proc_hs_complete maskStep
    rw [hfb]
    simp only [List.length_cons, List.getD_cons_zero, List.getD_cons_succ,
      and_127_eq_self (show P.length < 128 by omega),
      and_128_eq_zero (show P.length < 128 by omega),
      eq_false h126, eq_false h127,
      eq_false (show ¬(P.length + 1 + 1 < 2) by omega),
      eq_false hrsv,
      eq_false (show ¬(2 + P.length > P.length + 1 + 1) by omega),
      eq_true (show P.length + 2 = P.length + 1 + 1 by omega),
      show decide ((0 : Nat) ≠ 0) = false from by decide,
      hfin, if_false, if_true, Bool.false_eq_true,
      List.drop_succ_cons, List.drop_zero, List.take_length]
  · -- 16-bit length encoding
    have hfb : c.rbuf =
        b1v :: 126 :: ((P.length >>> 8) % 256) :: (P.length % 256) :: P := by
      rw [hrb]; unfold frame_bytes to_be_bytes_u16
      rw [if_neg (by omega), if_pos (by omega),
        Nat.mod_eq_of_lt (show P.length < 2 ^ 16 by omega)]
      simp
    have hpl := be16_or (show P.length < 65536 by omega)
    unfold proc_hs_complete maskStep
    rw [hfb]
    simp only [List.length_cons, List.getD_cons_zero, List.getD_cons_succ, hpl,
      eq_false (show ¬(P.length + 1 + 1 + 1 + 1 < 2) by omega),
      eq_false hrsv,
      eq_false (show ¬(P.length + 1 + 1 + 1 + 1 < 4) by omega),
      eq_false (show ¬(4 + P.length > P.length + 1 + 1 + 1 + 1) by omega),
      eq_true (show P.length + 4 = P.length + 1 + 1 + 1 + 1 by omega),
      eq_true (show ((126 : Nat) &&& 127) = 126 from by decide),
      show ((126 : Nat) &&& 128) = 0 from by decide,
      show decide ((0 : Nat) ≠ 0) = false from by decide,
      hfin, if_false, if_true, Bool.false_eq_true,
      List.drop_succ_cons, List.drop_zero, List.take_length]
  · -- 64-bit length encoding
    have hfb : c.rbuf =
        b1v :: 127 :: ((P.length >>> 56) % 256) :: ((P.length >>> 48) % 256) ::
          ((P.length >>> 40) % 256) :: ((P.length >>> 32) % 256) :: ((P.length >>> 24) % 256) ::
          ((P.length >>> 16) % 256) :: ((P.length >>> 8) % 256) :: (P.length % 256) :: P := by
      rw [hrb]; unfold frame_bytes to_be_bytes_u64
      rw [if_neg (by omega), if_neg (by omega),
        Nat.mod_eq_of_lt (show P.length < 2 ^ 64 by omega)]
      simp
    have hpl := be64_or (show P.length < 2 ^ 64 by omega)
    unfold proc_hs_complete maskStep
    rw [hfb]
    simp only [List.length_cons, List.getD_cons_zero, List.getD_cons_succ, hpl,
      eq_false (show ¬(P.length + 1 + 1 + 1 + 1 + 1 + 1 + 1 + 1 + 1 + 1 < 2) by omega),
      eq_false hrsv,
      eq_false (show ¬(P.length + 1 + 1 + 1 + 1 + 1 + 1 + 1 + 1 + 1 + 1 < 10) by omega),
      eq_false
        (show ¬(10 + P.length > P.length + 1 + 1 + 1 + 1 + 1 + 1 + 1 + 1 + 1 + 1) by omega),
      eq_true
        (show P.length + 10 = P.length + 1 + 1 + 1 + 1 + 1 + 1 + 1 + 1 + 1 + 1 by omega),
      eq_false (show ¬(((127 : Nat) &&& 127) = 126) from by decide),
      eq_true (show ((127 : Nat) &&& 127) = 127 from by decide),
      show ((127 : Nat) &&& 128) = 0 from by decide,
      show decide ((0 : Nat) ≠ 0) = false from by decide,
      hfin, if_false, if_true, Bool.false_eq_true,
      List.drop_succ_cons, List.drop_zero, List.take_length]

/-- First-hit characterization of the `uri_end` scan: either no terminator
byte exists at or after `i` and the result is 0, or the result is the first
index at or after `i` holding a terminator byte. -/
theorem findUriEndF_spec (buf : List Nat) :
    ∀ fuel i, fuel = buf.length - i →
      (findUriEndF fuel buf i = 0 ∧
        ∀ k, i ≤ k → k < buf.length → isTermByte (buf.getD k 0) = false) ∨
      (i ≤ findUriEndF fuel buf i ∧ findUriEndF fuel buf i < buf.length ∧
        isTermByte (buf.getD (findUriEndF fuel buf i) 0) = true ∧
        ∀ k, i ≤ k → k < findUriEndF fuel buf i → isTermByte (buf.getD k 0) = false) := by
  intro fuel
  induction fuel with
  | zero =>
    intro i hf
    left
    exact ⟨rfl, fun k hk1 hk2 => by omega⟩
  | succ m ih =>
    intro i hf
    simp only [findUriEndF]
    split
    · rename_i hilen
      split
      · rename_i hterm
        right
        exact ⟨Nat.le_refl i, hilen, hterm, fun k h1 h2 => by omega⟩
      · rename_i hterm
        simp only [Bool.not_eq_true] at hterm
        rcases ih (i + 1) (by omega) with ⟨h0, hall⟩ | ⟨h1, h2, h3, h4⟩
        · left
          refine ⟨h0, fun k hk1 hk2 => ?_⟩
          rcases Nat.eq_or_lt_of_le hk1 with rfl | hlt
          · exact hterm
          · exact hall k hlt hk2
        · right
          refine ⟨by omega, h2, h3, fun k hk1 hk2 => ?_⟩
          rcases Nat.eq_or_lt_of_le hk1 with rfl | hlt
          · exact hterm
          · exact h4 k (by omega) hk2
    · rename_i hilen
      left
      exact ⟨rfl, fun k hk1 hk2 => by omega⟩

/-- First-hit characterization of the key-value terminator scan. -/
theorem findLineEndF_some (buf : List Nat) :
    ∀ fuel j0 j, fuel = buf.length - j0 →
      findLineEndF fuel buf j0 = some j →
      j0 ≤ j ∧ j < buf.length ∧ (buf.getD j 0 = 13 ∨ buf.getD j 0 = 10) ∧
      ∀ m, j0 ≤ m → m < j → ¬(buf.getD m 0 = 13) ∧ ¬(buf.getD m 0 = 10) := by
  intro fuel
  induction fuel with
  | zero =>
    intro j0 j hf h
    cases h
  | succ m ih =>
    intro j0 j hf h
    simp only [findLineEndF] at h
    split at h
    · rename_i hjlen
      split at h
      · rename_i hcr
        rw [Option.some.injEq] at h
        subst h
        simp only [Bool.or_eq_true, decide_eq_true_eq] at hcr
        exact ⟨Nat.le_refl _, hjlen, hcr, fun k hk1 hk2 => by omega⟩
      · rename_i hcr
        simp only [Bool.or_eq_true, decide_eq_true_eq] at hcr
        push_neg at hcr
        obtain ⟨h1, h2, h3, h4⟩ := ih (j0 + 1) j (by omega) h
        refine ⟨by omega, h2, h3, fun k hk1 hk2 => ?_⟩
        rcases Nat.eq_or_lt_of_le hk1 with rfl | hlt
        · exact hcr
        · exact h4 k (by omega) hk2
    · cases h

/-- One-step unfolding of the header scan (definitional). -/
theorem hsScanF_succ_eq (fuel : Nat) (buf : List Nat) (i : Nat) (secKey : List Nat) :
    hsScanF (fuel + 1) buf i secKey =
      (if i < buf.length then
        if sentinelAt buf i then
          if secKey = [] ∨ secKey.length > 24 then HsOut.bad else HsOut.ok secKey (i + 1)
        else if buf.getD i 0 = 10 ∧ keyPrefixAt buf i then
          match findLineEnd buf (i + 1 + SEC_KEY_PREFIX.length) with
          | some j =>
            hsScanF fuel buf (i + 1)
              ((buf.drop (i + 1 + SEC_KEY_PREFIX.length)).take
                (j - (i + 1 + SEC_KEY_PREFIX.length)))
          | none => hsScanF fuel buf (i + 1) secKey
        else hsScanF fuel buf (i + 1) secKey
      else HsOut.wait) := rfl

/-- Adequacy of the header scan: when some index at or after `i` satisfies the
end-of-headers test, the scan does not run out of buffer (never `wait`). -/
theorem hsScanF_ne_wait (buf : List Nat) :
    ∀ fuel i secKey, fuel = buf.length - i →
      (∃ t, i ≤ t ∧ t < buf.length ∧ sentinelAt buf t = true) →
      hsScanF fuel buf i secKey ≠ HsOut.wait := by
  intro fuel
  induction fuel with
  | zero =>
    intro i secKey hf hex heq
    obtain ⟨t, ht1, ht2, ht3⟩ := hex
    omega
  | succ m ih =>
    intro i secKey hf hex heq
    obtain ⟨t, ht1, ht2, ht3⟩ := hex
    rw [hsScanF_succ_eq] at heq
    split at heq
    · rename_i hilen
      split at heq
      · split at heq <;> cases heq
      · rename_i hsent
        simp only [Bool.not_eq_true] at hsent
        have hnext : ∃ t2, i + 1 ≤ t2 ∧ t2 < buf.length ∧ sentinelAt buf t2 = true := by
          refine ⟨t, ?_, ht2, ht3⟩
          rcases Nat.eq_or_lt_of_le ht1 with rfl | hlt
          · rw [ht3] at hsent; cases hsent
          · omega
        split at heq
        · split at heq
          · exact ih (i + 1) _ (by omega) hnext heq
          · exact ih (i + 1) _ (by omega) hnext heq
        · exact ih (i + 1) _ (by omega) hnext heq
    · rename_i hilen
      omega

/-- Characterization of a successful header scan: the result key is non-empty
and at most 24 octets; the consumed count is `t + 1` for the first index `t`
at or after `i` passing the end-of-headers test; and the key is either the
incoming accumulator or the value of a `Sec-WebSocket-Key` header found at
some LF index `i2 < t`. -/
theorem hsScanF_ok (buf : List Nat) :
    ∀ fuel i secKey key c, fuel = buf.length - i →
      hsScanF fuel buf i secKey = HsOut.ok key c →
      key ≠ [] ∧ key.length ≤ 24 ∧
      ∃ t, i ≤ t ∧ t < buf.length ∧ sentinelAt buf t = true ∧ c = t + 1 ∧
        (∀ u, i ≤ u → u < t → sentinelAt buf u = false) ∧
        (key = secKey ∨ ∃ i2 j, i ≤ i2 ∧ i2 < t ∧ buf.getD i2 0 = 10 ∧
          keyPrefixAt buf i2 = true ∧
          findLineEnd buf (i2 + 1 + SEC_KEY_PREFIX.length) = some j ∧
          key = (buf.drop (i2 + 1 + SEC_KEY_PREFIX.length)).take
            (j - (i2 + 1 + SEC_KEY_PREFIX.length))) := by
  intro fuel
  induction fuel with
  | zero =>
    intro i secKey key c hf h
    cases h
  | succ m ih =>
    intro i secKey key c hf h
    rw [hsScanF_succ_eq] at h
    split at h
    · rename_i hilen
      split at h
      · rename_i hsent
        split at h
        · cases h
        · rename_i hguard
          cases h
          push_neg at hguard
          refine ⟨hguard.1, by omega, i, Nat.le_refl i, hilen, hsent, rfl,
            fun u hu1 hu2 => by omega, Or.inl rfl⟩
      · rename_i hsent
        simp only [Bool.not_eq_true] at hsent
        split at h
        · rename_i hkey
          split at h
          · rename_i j hfl
            obtain ⟨hne, h24, t, ht1, ht2, ht3, ht4, ht5, ht6⟩ := ih (i + 1) _ key c (by omega) h
            refine ⟨hne, h24, t, by omega, ht2, ht3, ht4, ?_, ?_⟩
            · intro u hu1 hu2
              rcases Nat.eq_or_lt_of_le hu1 with rfl | hlt
              · exact hsent
              · exact ht5 u (by omega) hu2
            · rcases ht6 with rfl | ⟨i2, j2, hh⟩
              · exact Or.inr ⟨i, j, Nat.le_refl i, by omega, hkey.1, hkey.2, hfl, rfl⟩
              · exact Or.inr ⟨i2, j2, by omega, hh.2.1, hh.2.2.1, hh.2.2.2.1,
                  hh.2.2.2.2.1, hh.2.2.2.2.2⟩
          · obtain ⟨hne, h24, t, ht1, ht2, ht3, ht4, ht5, ht6⟩ :=
              ih (i + 1) secKey key c (by omega) h
            refine ⟨hne, h24, t, by omega, ht2, ht3, ht4, ?_, ?_⟩
            · intro u hu1 hu2
              rcases Nat.eq_or_lt_of_le hu1 with rfl | hlt
              · exact hsent
              · exact ht5 u (by omega) hu2
            · rcases ht6 with rfl | ⟨i2, j2, hh⟩
              · exact Or.inl rfl
              · exact Or.inr ⟨i2, j2, by omega, hh.2.1, hh.2.2.1, hh.2.2.2.1,
                  hh.2.2.2.2.1, hh.2.2.2.2.2⟩
        · obtain ⟨hne, h24, t, ht1, ht2, ht3, ht4, ht5, ht6⟩ :=
            ih (i + 1) secKey key c (by omega) h
          refine ⟨hne, h24, t, by omega, ht2, ht3, ht4, ?_, ?_⟩
          · intro u hu1 hu2
            rcases Nat.eq_or_lt_of_le hu1 with rfl | hlt
            · exact hsent
            · exact ht5 u (by omega) hu2
          · rcases ht6 with rfl | ⟨i2, j2, hh⟩
            · exact Or.inl rfl
            · exact Or.inr ⟨i2, j2, by omega, hh.2.1, hh.2.2.1, hh.2.2.2.1,
                hh.2.2.2.2.1, hh.2.2.2.2.2⟩
    · cases h

/-- Under the `GET /` prefix, no carriage return can occur among the first
5 bytes, so any CR position is at index 5 or later. -/
theorem cr_ge5 (buf : List Nat) (hp : buf.take 5 = GET_PREFIX) (s : Nat)
    (h13 : buf.getD s 0 = 13) : 5 ≤ s := by
  by_contra hlt
  push_neg at hlt
  have h1 : buf.getD s 0 = GET_PREFIX.getD s 0 := by
    rw [← hp, List.getD_eq_getElem?_getD, List.getD_eq_getElem?_getD,
      List.getElem?_take_of_lt hlt]
  rw [h1] at h13
  interval_cases s <;> exact absurd h13 (by decide)

/-- A sentinel start position induces a passing end-of-headers test at its
final LF. -/
theorem sentinelAt_of_start (buf : List Nat) (s : Nat) (h : sentinelStartAt buf s) :
    sentinelAt buf (s + 3) = true := by
  obtain ⟨h1, h2, h3, h4, h5⟩ := h
  simp only [sentinelAt, Bool.and_eq_true, decide_eq_true_eq]
  rw [show s + 3 - 1 = s + 2 by omega, show s + 3 - 2 = s + 1 by omega,
    show s + 3 - 3 = s by omega]
  exact ⟨⟨⟨h5, h4⟩, h3⟩, h2⟩

/-- CR is a URI terminator byte. -/
theorem isTermByte_cr {buf : List Nat} {s : Nat} (h13 : buf.getD s 0 = 13) :
    isTermByte (buf.getD s 0) = true := by
  rw [h13]; decide

/-- Elements of the URI slice checked by `proc_hs` are exactly the buffer
bytes at indices `4 ≤ k < uri_end`. -/
theorem all_uri_slice (buf : List Nat) (e k : Nat)
    (hall : ((buf.drop 4).take (e - 4)).all isUriByte = true)
    (h4 : 4 ≤ k) (hk : k < e) (he : e ≤ buf.length) :
    isUriByte (buf.getD k 0) = true := by
  have hkl : k < buf.length := Nat.lt_of_lt_of_le hk he
  have h1 : ((buf.drop 4).take (e - 4))[k - 4]? = buf[k]? := by
    rw [List.getElem?_take_of_lt (by omega), List.getElem?_drop]
    congr 1
    omega
  have h3 : buf[k]? = some buf[k] := List.getElem?_eq_getElem hkl
  have hmem : buf[k] ∈ (buf.drop 4).take (e - 4) :=
    List.getElem?_mem (by rw [h1, h3])
  have h2 := List.all_eq_true.mp hall _ hmem
  rw [List.getD_eq_getElem?_getD, h3]
  exact h2

/-- With a complete request buffered, the server handshake parser never
reports `wait`: it either accepts or rejects. -/
theorem proc_hs_ne_wait (buf : List Nat) (hc : specComplete buf) :
    proc_hs buf ≠ HsOut.wait := by
  unfold proc_hs
  split
  · rename_i hp
    obtain ⟨hp5, hpfx⟩ := hp
    obtain ⟨s, hslen, h13, h10a, h13b, h10b⟩ := hc
    have hs5 : 5 ≤ s := cr_ge5 buf hpfx s h13
    have hterm : isTermByte (buf.getD s 0) = true := isTermByte_cr h13
    unfold findUriEnd hsScan
    dsimp only
    rcases findUriEndF_spec buf (buf.length - 5) 5 rfl with ⟨h0, hnone⟩ | ⟨he1, he2, he3, he4⟩
    · rw [hnone s hs5 (by omega)] at hterm
      cases hterm
    · split
      · rename_i h0
        exact absurd h0 (by omega)
      · split
        · simp
        · have hes : findUriEndF (buf.length - 5) buf 5 ≤ s := by
            by_contra hlt
            push_neg at hlt
            rw [he4 s hs5 hlt] at hterm
            cases hterm
          exact hsScanF_ne_wait buf _ _ [] rfl
            ⟨s + 3, by omega, by omega,
             sentinelAt_of_start buf s ⟨hslen, h13, h10a, h13b, h10b⟩⟩
  · simp

/-- When the server handshake parser accepts (101 path), the request is
well formed in the sense of the spec: legal request line and a 1..24-octet
`Sec-WebSocket-Key` value before the end-of-headers sentinel. -/
theorem proc_hs_ok_good (buf : List Nat) (key : List Nat) (c : Nat)
    (h : proc_hs buf = HsOut.ok key c) : specGoodRequest buf := by
  unfold proc_hs at h
  split at h
  · rename_i hp
    obtain ⟨hp5, hpfx⟩ := hp
    unfold findUriEnd hsScan at h
    dsimp only at h
    split at h
    · cases h
    · rename_i hne0
      split at h
      · cases h
      · rename_i hclass
        simp only [Bool.not_eq_false] at hclass
        obtain ⟨hkne, hk24, t, ht1, ht2, ht3, ht4, ht5, ht6⟩ :=
          hsScanF_ok buf _ _ _ _ _ rfl h
        rcases ht6 with rfl | ⟨i2, j, hi2a, hi2b, h10, hkp, hfl, hkey⟩
        · exact absurd rfl hkne
        · rcases findUriEndF_spec buf (buf.length - 5) 5 rfl with ⟨h0, _⟩ | ⟨he1, he2, he3, he4⟩
          · exact absurd h0 hne0
          · simp only [keyPrefixAt, Bool.and_eq_true, decide_eq_true_eq] at hkp
            unfold findLineEnd at hfl
            obtain ⟨hj0, hjlen, hjbyte, hjmin⟩ := findLineEndF_some buf _ _ _ rfl hfl
            have hklen : key.length = j - (i2 + 1 + SEC_KEY_PREFIX.length) := by
              rw [hkey]
              simp only [List.length_take, List.length_drop]
              omega
            have hkpos : 0 < key.length := List.length_pos.mpr hkne
            refine ⟨⟨hp5, hpfx, findUriEndF (buf.length - 5) buf 5, he1, he2, he3,
              fun k hk5 hke => all_uri_slice buf _ k hclass (by omega) hke (by omega)⟩,
              i2, j, ⟨h10, hkp.2, hj0, hjlen, hjbyte, hjmin, by omega, by omega⟩, ?_⟩
            intro s hs
            have hs5 : 5 ≤ s := cr_ge5 buf hpfx s hs.2.1
            have hterm : isTermByte (buf.getD s 0) = true := isTermByte_cr hs.2.1
            have hes : findUriEndF (buf.length - 5) buf 5 ≤ s := by
              by_contra hlt
              push_neg at hlt
              rw [he4 s hs5 hlt] at hterm
              cases hterm
            by_contra hge
            push_neg at hge
            have hlt3 : s + 3 < t := by omega
            have hsent3 := sentinelAt_of_start buf s hs
            rw [ht5 (s + 3) (by omega) hlt3] at hsent3
            cases hsent3
  · cases h

/-! ## Claim theorems -/

/-- C1: the claim states that for every accepted `Sec-WebSocket-Key` (length
1..24) the SHA-1 input is exactly `key || magic` and nothing else.  The code
hashes the whole 60-byte `combined` buffer, so for the accepted 1-octet key
`"x"` the SHA-1 input is `key || magic || 23 zero octets`, not `key || magic`:
the accept token disagrees with `Base64(SHA1(key || magic))` for every
accepted key shorter than 24 octets. -/
theorem c1_sha1_input_zero_padded :
    sha1_input [120] = [120] ++ MAGIC_STRING ++ List.replicate 23 0 ∧
    sha1_input [120] ≠ [120] ++ MAGIC_STRING := by
  exact ⟨by decide, by decide⟩

/-- C9: on a connection whose `cstate` is `Closed`, `send_impl` (hence
`WsResponse::send` and `WsResponse::sendb`) returns the `ConnectionClosed`
error raised by the first `writeb`, hands no bytes to the socket, and leaves
the connection (in particular `wbuf`) unchanged. -/
theorem c9_send_on_closed (c : Conn) (mtype : MessageType) (bytes : List Nat)
    (h : c.cstate = ConnectionState.Closed) :
    send_impl c mtype bytes =
      ⟨Except.error ErrKind.ConnectionClosed, c, [], true⟩ := by
  unfold send_impl
  split <;> split <;> (try split) <;> simp [sendWrites, writeb, conn_close, h]

/-- Witness for C9 at a concrete closed connection with a non-empty `wbuf`. -/
theorem c9_send_on_closed_witness :
    send_impl ⟨ConnectionType.ClientConnection, ConnectionState.Closed, [], [5], false⟩
        MessageType.Text [1, 2, 3] =
      ⟨Except.error ErrKind.ConnectionClosed,
       ⟨ConnectionType.ClientConnection, ConnectionState.Closed, [], [5], false⟩, [], true⟩ :=
  c9_send_on_closed _ _ _ rfl

/-- C5 (amended): `Connection::close(status)` emits the two close frames
`0x88 0x00`, `0x88 0x02` followed by the 16-bit big-endian status code and
shuts the socket down only when `cstate` is `HandshakeComplete`; on a
`NeedHandshake` or `Closed` connection it emits nothing and only shuts the
socket down. -/
theorem c5_close_behavior (c : Conn) (status : Nat)
    (hw : c.wbuf = []) (hd : c.debug_pending = false) :
    conn_close c status =
      if c.cstate = ConnectionState.HandshakeComplete then
        ⟨c, [0x88, 0, 0x88, 2] ++ to_be_bytes_u16 status, true⟩
      else ⟨c, [], true⟩ := by
  match hst : c.cstate with
  | ConnectionState.HandshakeComplete =>
    rw [if_pos rfl]
    exact conn_close_hs_eval c status hst hw hd
  | ConnectionState.NeedHandshake =>
    rw [if_neg (by decide)]
    exact conn_close_nh_eval c status hst
  | ConnectionState.Closed =>
    rw [if_neg (by decide)]
    exact conn_close_closed_eval c status hst

/-- Counterexample for C5 as stated: a close write on a connection that is
still in `NeedHandshake` (e.g. the `WsResponse` returned by `add_client`
before the 101 response arrived) emits no bytes at all, not the two close
frames with the status code. -/
theorem c5_close_counterexample :
    (conn_close ⟨ConnectionType.ClientConnection, ConnectionState.NeedHandshake, [], [], false⟩
        1000).sent = [] ∧
    ([] : List Nat) ≠ [0x88, 0, 0x88, 2, 3, 232] := by
  exact ⟨by decide, by decide⟩

/-- Witness for C5 (amended) on a `HandshakeComplete` connection with
status 1000. -/
theorem c5_close_behavior_witness :
    conn_close ⟨ConnectionType.ServerConnection, ConnectionState.HandshakeComplete, [], [], false⟩
        1000 =
      ⟨⟨ConnectionType.ServerConnection, ConnectionState.HandshakeComplete, [], [], false⟩,
       [0x88, 0, 0x88, 2, 3, 232], true⟩ := by
  have h := c5_close_behavior
    ⟨ConnectionType.ServerConnection, ConnectionState.HandshakeComplete, [], [], false⟩
    1000 rfl rfl
  simpa [to_be_bytes_u16] using h

/-- C3 (amended): on a `HandshakeComplete` connection whose read buffer holds
at least 2 bytes with a reserved bit of `0x70` set in byte 0, the decoder
emits `0x88 0x00`, then `0x88 0x02` and the big-endian status 1002, shuts the
socket down, and does not invoke the handler — but `cstate` is left at
`HandshakeComplete` (the `Closed` transition only happens later, when the
shutdown-induced EOF is read), and `rbuf` is not consumed. -/
theorem c3_reserved_bits_close (c : Conn)
    (hst : c.cstate = ConnectionState.HandshakeComplete)
    (hw : c.wbuf = []) (hd : c.debug_pending = false)
    (hlen : 2 ≤ c.rbuf.length)
    (hrsv : c.rbuf.getD 0 0 &&& 0x70 ≠ 0) :
    proc_hs_complete c = ⟨c, [0x88, 0, 0x88, 2, 3, 234], true, []⟩ := by
  unfold proc_hs_complete
  rw [if_neg (by omega), if_pos hrsv, conn_close_hs_eval c 1002 hst hw hd]
  simp [to_be_bytes_u16]

/-- Counterexample for C3 as stated: after the decoder handles the
reserved-bits frame `0xF1 0x00`, the connection's `cstate` is not `Closed`. -/
theorem c3_cstate_not_closed :
    (proc_hs_complete
        ⟨ConnectionType.ServerConnection, ConnectionState.HandshakeComplete, [241, 0], [],
          false⟩).conn.cstate ≠ ConnectionState.Closed := by
  decide

/-- Witness for C3 (amended) at the concrete buffer `0xF1 0x00`. -/
theorem c3_reserved_bits_close_witness :
    proc_hs_complete
        ⟨ConnectionType.ServerConnection, ConnectionState.HandshakeComplete, [241, 0], [],
          false⟩ =
      ⟨⟨ConnectionType.ServerConnection, ConnectionState.HandshakeComplete, [241, 0], [],
          false⟩, [0x88, 0, 0x88, 2, 3, 234], true, []⟩ :=
  c3_reserved_bits_close _ rfl rfl rfl (by decide) (by decide)

/-- C7: for a started endpoint (a runtime is installed and its halt flag is
unset), the first `stop()` returns `Ok`; the second `stop()` returns the
`NotInitialized` error and performs no further effect at all — in particular
no second join/release of any resource (the state after the second call is
exactly the state after the first). -/
theorem c7_stop_idempotent (s : WsEndpointState) (rt : RtState)
    (hrt : s.runtime = some rt) (hhalt : rt.halt = false) :
    (ws_stop s).1 = Except.ok () ∧
    (ws_stop (ws_stop s).2).1 = Except.error ErrKind.NotInitialized ∧
    (ws_stop (ws_stop s).2).2 = (ws_stop s).2 := by
  simp [ws_stop, rt_stop, hrt, hhalt]

/-- Witness for C7 at a concrete started endpoint. -/
theorem c7_stop_idempotent_witness :
    (ws_stop ⟨false, 4, some ⟨false, 0, 0, 4⟩⟩).1 = Except.ok () ∧
    (ws_stop (ws_stop ⟨false, 4, some ⟨false, 0, 0, 4⟩⟩).2).1 =
      Except.error ErrKind.NotInitialized ∧
    (ws_stop (ws_stop ⟨false, 4, some ⟨false, 0, 0, 4⟩⟩).2).2 =
      (ws_stop ⟨false, 4, some ⟨false, 0, 0, 4⟩⟩).2 :=
  c7_stop_idempotent _ ⟨false, 0, 0, 4⟩ rfl rfl

/-- C2: for every payload `P` with `len(P) ≤ 2^31` (covering the boundary
lengths 0, 125, 126, 65535, 65536), decoding the frame emitted by
`WsResponse::send` on a `HandshakeComplete` connection yields exactly one
handler invocation with `fin = true`, `op = 0x1`, `msg = P` and an emptied
read buffer (likewise `op = 0x2` for `WsResponse::sendb`); the emitted frame
has the mask bit clear, and uses the smallest legal length encoding: one
length byte for `len ≤ 125`, byte 126 plus a 16-bit big-endian length for
`len ≤ 65535`, byte 127 plus a 64-bit big-endian length otherwise. -/
theorem c2_roundtrip (P : List Nat) (hP : P.length ≤ 2 ^ 31) :
    proc_hs_complete (server_conn (encode_frame MessageType.Text P)) =
      ⟨server_conn [], [], false, [(true, 0x1, P)]⟩ ∧
    proc_hs_complete (server_conn (encode_frame MessageType.Binary P)) =
      ⟨server_conn [], [], false, [(true, 0x2, P)]⟩ ∧
    (encode_frame MessageType.Text P).getD 1 0 &&& 0x80 = 0 ∧
    (encode_frame MessageType.Binary P).getD 1 0 &&& 0x80 = 0 ∧
    (P.length ≤ 125 → encode_frame MessageType.Text P = [0x81, P.length] ++ P) ∧
    (126 ≤ P.length → P.length ≤ 65535 →
      encode_frame MessageType.Text P =
        [0x81, 126, P.length >>> 8, P.length % 256] ++ P) ∧
    (65536 ≤ P.length →
      encode_frame MessageType.Text P = [0x81, 127] ++ to_be_bytes_u64 P.length ++ P) := by
  have heT : encode_frame MessageType.Text P = frame_bytes 0x81 P := by
    unfold encode_frame
    rw [send_impl_eval _ _ _ rfl rfl rfl]
  have heB : encode_frame MessageType.Binary P = frame_bytes 0x82 P := by
    unfold encode_frame
    rw [send_impl_eval _ _ _ rfl rfl rfl]
  have hmask : ∀ b1v, b1v = 0x81 ∨ b1v = 0x82 →
      (frame_bytes b1v P).getD 1 0 &&& 0x80 = 0 := by
    intro b1v hb1
    unfold frame_bytes
    rcases (show P.length ≤ 125 ∨ (126 ≤ P.length ∧ P.length ≤ 65535) ∨ 65536 ≤ P.length
        by omega) with h | ⟨h1, h2⟩ | h
    · rw [if_pos h, Nat.mod_eq_of_lt (show P.length < 256 by omega)]
      simp only [List.cons_append, List.getD_cons_succ, List.getD_cons_zero]
      exact and_128_eq_zero (by omega)
    · rw [if_neg (by omega), if_pos (by omega)]
      simp only [List.cons_append, List.getD_cons_succ, List.getD_cons_zero]
      decide
    · rw [if_neg (by omega), if_neg (by omega)]
      simp only [List.cons_append, List.getD_cons_succ, List.getD_cons_zero]
      decide
  refine ⟨?_, ?_, ?_, ?_, ?_, ?_, ?_⟩
  · have h := decode_frame_bytes (server_conn (encode_frame MessageType.Text P)) 0x81 P
      (Or.inl rfl) hP heT
    rw [h]
    simp [server_conn, show ((129 : Nat) &&& 127) = 1 from by decide]
  · have h := decode_frame_bytes (server_conn (encode_frame MessageType.Binary P)) 0x82 P
      (Or.inr rfl) hP heB
    rw [h]
    simp [server_conn, show ((130 : Nat) &&& 127) = 2 from by decide]
  · rw [heT]; exact hmask _ (Or.inl rfl)
  · rw [heB]; exact hmask _ (Or.inr rfl)
  · intro h
    rw [heT]; unfold frame_bytes
    rw [if_pos h, Nat.mod_eq_of_lt (show P.length < 256 by omega)]
  · intro h1 h2
    have hs : P.length >>> 8 < 256 := by
      rw [Nat.shiftRight_eq_div_pow]; omega
    rw [heT]; unfold frame_bytes to_be_bytes_u16
    rw [if_neg (by omega), if_pos (by omega),
      Nat.mod_eq_of_lt (show P.length < 2 ^ 16 by omega), Nat.mod_eq_of_lt hs]
    simp
  · intro h
    rw [heT]; unfold frame_bytes
    rw [if_neg (by omega), if_neg (by omega),
      Nat.mod_eq_of_lt (show P.length < 2 ^ 64 by omega)]

/-- Witness for C2 at the concrete payload `"hi"` (bytes 104 105). -/
theorem c2_roundtrip_witness :
    proc_hs_complete (server_conn (encode_frame MessageType.Text [104, 105])) =
      ⟨server_conn [], [], false, [(true, 1, [104, 105])]⟩ :=
  (c2_roundtrip [104, 105] (by norm_num)).1

/-- C4: whenever a complete HTTP request is buffered (the end-of-headers
sentinel is present) that is malformed in the sense of the spec — the request
line does not begin with `GET /` followed by a URI of characters in
`[A-Za-z0-9-._~/]` terminated by space, `?`, or CR/LF, or no
`Sec-WebSocket-Key` header value of length 1..24 appears before the sentinel —
the server handshake parser takes the `bad_request` path, which writes the
static 400 response and shuts the socket down.  In particular (see the
witness) the exact input `GET /../ HTTP/1.1\r\n\r\n` receives the 400. -/
theorem c4_malformed_request_400 (buf : List Nat)
    (hcomplete : specComplete buf) (hbad : ¬ specGoodRequest buf) :
    proc_hs buf = HsOut.bad ∧
    (bad_request_eff ⟨ConnectionType.ServerConnection, ConnectionState.NeedHandshake, buf, [],
      false⟩).2 = (BAD_REQUEST_BYTES, true) := by
  constructor
  · cases hout : proc_hs buf with
    | bad => rfl
    | ok key c => exact absurd (proc_hs_ok_good buf key c hout) hbad
    | wait => exact absurd hout (proc_hs_ne_wait buf hcomplete)
  · simp [bad_request_eff, writeb]

/-- Witness for C4 at the literal malformed input `GET /../ HTTP/1.1` CRLF
CRLF (complete, and lacking any `Sec-WebSocket-Key` header). -/
theorem c4_malformed_request_400_witness :
    proc_hs bad_uri_request = HsOut.bad ∧
    (bad_request_eff ⟨ConnectionType.ServerConnection, ConnectionState.NeedHandshake,
      bad_uri_request, [], false⟩).2 = (BAD_REQUEST_BYTES, true) := by
  refine c4_malformed_request_400 bad_uri_request ⟨17, ?_⟩ ?_
  · refine ⟨by decide, by decide, by decide, by decide, by decide⟩
  · intro hg
    obtain ⟨-, i, j, hk, -⟩ := hg
    obtain ⟨h10, hpre, hj1, hj2, -⟩ := hk
    have hl : SEC_KEY_PREFIX.length = 19 := by decide
    have hlen : bad_uri_request.length = 21 := by decide
    rw [hl] at hj1
    rw [hlen] at hj2
    have hi0 : i = 0 := by omega
    rw [hi0] at h10
    exact absurd h10 (by decide)

/-- C6: the per-connection parse loop `proc_messages` terminates for every
initial read-buffer content and connection state: the handshake and frame
parsers never grow the read buffer (each iteration leaves it unchanged or
strictly shrinks it), so `rbuf.length + 1` iterations always reach the loop's
exit condition (buffer empty or buffer length unchanged). -/
theorem c6_proc_messages_terminates :
    (∀ c : Conn, (proc_messages_step c).rbuf.length ≤ c.rbuf.length) ∧
    (∀ c : Conn, (proc_messages_fuel (c.rbuf.length + 1) c).isSome = true) := by
  refine ⟨proc_messages_step_rbuf_le, fun c => ?_⟩
  exact proc_messages_fuel_total (c.rbuf.length + 1) c (Nat.lt_succ_self _)

/-- C10: the frame decoder treats every opcode uniformly — on any connection
whose buffer starts with a complete frame (`frame_header` succeeds) whose
reserved bits `b0 & 0x70` are zero, the handler is invoked exactly once, with
`op = b0 & 0x7F` whatever its value (including the control opcodes 0x8, 0x9,
0xA), and the decoder itself emits no bytes (so no automatic close reply or
pong is generated) and performs no shutdown. -/
theorem c10_uniform_opcodes (c : Conn) (payload_len offset : Nat)
    (hrsv : c.rbuf.getD 0 0 &&& 0x70 = 0)
    (hcomp : frame_header c.rbuf = some (payload_len, offset)) :
    ∃ msg, (proc_hs_complete c).handler =
        [(decide (c.rbuf.getD 0 0 &&& 0x80 ≠ 0), c.rbuf.getD 0 0 &&& 0x7F, msg)] ∧
      (proc_hs_complete c).sent = [] ∧
      (proc_hs_complete c).shutdown = false := by
  unfold frame_header at hcomp
  dsimp only at hcomp
  unfold proc_hs_complete
  dsimp only
  split
  · rename_i h2
    rw [if_pos h2] at hcomp
    cases hcomp
  · rename_i h2
    rw [if_neg h2] at hcomp
    split
    · rename_i hr
      exact absurd hrsv hr
    · split
      · rename_i heq
        exact absurd hcomp (by rw [heq]; simp)
      · rename_i pl0 off0 heq
        simp only [heq] at hcomp
        have hle : ¬((if decide (c.rbuf.getD 1 0 &&& 0x80 ≠ 0) = true then off0 + 4 else off0) +
            pl0 > c.rbuf.length) := by
          intro hgt
          rw [if_pos hgt] at hcomp
          cases hcomp
        obtain ⟨buf2', hms⟩ :=
          maskStep_of_le c.rbuf (decide (c.rbuf.getD 1 0 &&& 0x80 ≠ 0)) pl0 off0
            c.rbuf.length hle
        split
        · rename_i heq2
          rw [heq2] at hms
          cases hms
        · rename_i buf2 offset2 heq2
          rw [heq2] at hms
          simp only [Option.some.injEq, Prod.mk.injEq] at hms
          split
          · rename_i hgt
            rw [hms.2] at hgt
            exact absurd hgt hle
          · exact ⟨_, rfl, rfl, rfl⟩

/-- Witness for C10: the decoder hands a complete close frame (opcode 0x8,
bytes `0x88 0x00`) to the handler like any data frame, with no automatic
reply. -/
theorem c10_uniform_opcodes_witness :
    ∃ msg,
      (proc_hs_complete
          ⟨ConnectionType.ServerConnection, ConnectionState.HandshakeComplete, [136, 0], [],
            false⟩).handler = [(true, 8, msg)] ∧
      (proc_hs_complete
          ⟨ConnectionType.ServerConnection, ConnectionState.HandshakeComplete, [136, 0], [],
            false⟩).sent = [] ∧
      (proc_hs_complete
          ⟨ConnectionType.ServerConnection, ConnectionState.HandshakeComplete, [136, 0], [],
            false⟩).shutdown = false :=
  c10_uniform_opcodes _ 0 2 (by decide) (by decide)

/-- C8: in the elastic worker pool (with a well-formed configuration
`min_threads ≤ max_threads`): `total_workers` never exceeds `max_threads` in
any reachable state; a task dequeue spawns at most one worker, and spawns one
exactly when `waiting_workers` has dropped to 0 while `total_workers <
max_threads` and halt is unset; and a worker exits at the top of its loop
exactly when halt is set or when the incremented `waiting_workers` would
exceed `min_threads`. -/
theorem c8_pool_invariants (minT maxT : Nat) (hle : minT ≤ maxT) :
    (∀ s, PoolReachable minT maxT s → s.total ≤ maxT) ∧
    (∀ s : PoolState, (worker_task maxT s).1 ≤ 1 ∧
      ((worker_task maxT s).1 = 1 ↔
        s.waiting - 1 = 0 ∧ s.total < maxT ∧ s.halt = false)) ∧
    (∀ s : PoolState, (worker_top minT s).1 = true ↔
      (s.halt = true ∨ s.waiting + 1 > minT)) := by
  refine ⟨?_, ?_, ?_⟩
  · intro s h
    induction h with
    | init => exact hle
    | step hr hs ih =>
      cases hs with
      | top h =>
        unfold worker_top
        dsimp only
        split
        · simpa using Nat.le_trans (Nat.sub_le _ _) ih
        · split
          · simpa using Nat.le_trans (Nat.sub_le _ _) ih
          · simpa using ih
      | task h =>
        unfold worker_task
        dsimp only
        split
        · rename_i hg
          simpa using hg.2.1
        · simpa using ih
      | haltMsg => exact ih
      | setHalt => simpa using ih
  · intro s
    unfold worker_task
    dsimp only
    split
    · rename_i hg
      exact ⟨Nat.le_refl 1, iff_of_true rfl (by simpa using hg)⟩
    · rename_i hg
      exact ⟨Nat.zero_le 1, iff_of_false (by simp) (by simpa using hg)⟩
  · intro s
    unfold worker_top
    dsimp only
    split
    · rename_i hh
      exact iff_of_true rfl (Or.inl hh)
    · rename_i hh
      split
      · rename_i hgt
        exact iff_of_true rfl (Or.inr (by simpa using hgt))
      · rename_i hgt
        exact iff_of_false (by simp)
          (by rintro (h1 | h2); exacts [hh h1, hgt (by simpa using h2)])

/-- Witness for C8 with `min_threads = 2`, `max_threads = 3`, at the initial
reachable state. -/
theorem c8_pool_invariants_witness :
    (⟨2, 0, false⟩ : PoolState).total ≤ 3 :=
  (c8_pool_invariants 2 3 (by decide)).1 _ PoolReachable.init

end WsModel
